import Mathlib

/-!
Verification development for the instapi crate: a shallow embedding of its
authorization tokens (src/auth.rs), media collection (src/user.rs) and the
instafetcher example's downloader (examples/instafetcher), together with
theorems about the embedded operations.

Conventions of the embedding:
* `chrono::DateTime<Utc>` instants are nanoseconds since the Unix epoch, as `Int`
  (chrono has nanosecond precision); `Duration::hours/seconds` become
  multiplications by the nanosecond constants.
* Fallible Rust operations (`Result`) become `Except Err`.
* The network is passed in explicitly: a fetch result or transport response is a
  parameter, and functions report how many network interactions they performed.
* The thread pool used by `Profile::collect_media` serialises batch parsing
  through a `Mutex`; the nondeterministic order in which the submitted jobs
  acquire the lock is passed explicitly as a schedule (a permutation of the
  page indices).
-/

namespace Instapi

/-- Embedded error values standing for `Box<dyn Error>`: string-converted
messages and the distinguishable library error kinds the claims care about. -/
inductive Err where
  | msg : String → Err
  | parseInt : Err
  | parseDate : Err
  | parseUrl : Err
  | network : Err
  | httpStatus : Err
  | ioFail : Err
  | poisoned : Err
  | noResponse : Err
  deriving DecidableEq

/-- Nanoseconds in one second; `chrono` datetimes have nanosecond precision. -/
def nsPerSec : Int := 1000000000

/-- Nanoseconds in one hour, for `Duration::hours`. -/
def nsPerHour : Int := 3600 * nsPerSec

/-- First character of a URL scheme must be alphabetic (RFC 3986, as enforced
by the `url` crate). -/
def isSchemeStartChar (c : Char) : Bool := c.isAlpha

/-- Subsequent characters of a URL scheme (RFC 3986). -/
def isSchemeChar (c : Char) : Bool := c.isAlphanum || c = '+' || c = '-' || c = '.'

/-- Splits a character list at the first colon: returns the part before it and
the part after it, or `none` when there is no colon. -/
def splitScheme : List Char → Option (List Char × List Char)
  | [] => none
  | c :: rest =>
    if c = ':' then some ([], rest)
    else match splitScheme rest with
      | some (scheme, r) => some (c :: scheme, r)
      | none => none

/-- Models `url::Url::parse`: the input must have a nonempty RFC 3986 scheme
followed by a colon; the rest of the URL is kept verbatim (the `url` crate
normalises it, which no claim depends on). Returns the accepted URL string. -/
def urlParse (s : String) : Option String :=
  match splitScheme s.toList with
  | none => none
  | some ([], _) => none
  | some (c :: cs, _) =>
    if isSchemeStartChar c && cs.all isSchemeChar then some s else none

/-- Models `url::Url::parse_with_params`: the base URL is parsed and the query
pairs are appended; form-encoding of the pairs cannot fail, so success depends
only on the base URL. -/
def urlParseWithParams (base : String) (_params : List (String × String)) : Option String :=
  match urlParse base with
  | some u => some u
  | none => none

/-- Models `instapi::parse_opt` specialised to URLs (its only use): `None`
passes through, `Some s` must parse as a URL, a parse failure is an error. -/
def parse_opt (opt : Option String) : Except Err (Option String) :=
  match opt with
  | none => Except.ok none
  | some s =>
    match urlParse s with
    | some u => Except.ok (some u)
    | none => Except.error Err.parseUrl

/-- Numeric value of a list of ASCII digits. -/
def digitsToNat (l : List Char) : Nat :=
  l.foldl (fun acc c => acc * 10 + (c.toNat - 48)) 0

/-- Models Rust `str::parse::<u64>`: an optional leading `+`, then at least one
ASCII digit, and the value must fit in 64 bits (otherwise overflow is an
error). -/
def parseU64 (s : String) : Option Nat :=
  let l := s.toList
  let l := match l with
    | '+' :: rest => rest
    | _ => l
  if l.isEmpty then none
  else if l.all Char.isDigit then
    let n := digitsToNat l
    if n < 2 ^ 64 then some n else none
  else none

/-- A parsed `chrono::DateTime<FixedOffset>`, kept as its calendar components
plus the UTC offset in minutes; the claims only inspect parse success and the
components. -/
structure DateTimeFix where
  year : Nat
  month : Nat
  day : Nat
  hour : Nat
  minute : Nat
  second : Nat
  offsetMinutes : Int
  deriving DecidableEq

/-- Gregorian leap-year test. -/
def isLeapYear (y : Nat) : Bool := (y % 4 = 0 && y % 100 ≠ 0) || y % 400 = 0

/-- Number of days in a month of the proleptic Gregorian calendar. -/
def daysInMonth (y m : Nat) : Nat :=
  if m = 2 then (if isLeapYear y then 29 else 28)
  else if m = 4 || m = 6 || m = 9 || m = 11 then 30
  else 31

/-- Reads exactly two ASCII digits, returning their value and the rest. -/
def digit2 : List Char → Option (Nat × List Char)
  | a :: b :: rest =>
    if a.isDigit && b.isDigit then some ((a.toNat - 48) * 10 + (b.toNat - 48), rest)
    else none
  | _ => none

/-- Reads exactly four ASCII digits, returning their value and the rest. -/
def digit4 : List Char → Option (Nat × List Char)
  | a :: b :: c :: d :: rest =>
    if a.isDigit && b.isDigit && c.isDigit && d.isDigit then
      some (((a.toNat - 48) * 10 + (b.toNat - 48)) * 100 + (c.toNat - 48) * 10 + (d.toNat - 48),
            rest)
    else none
  | _ => none

/-- Consumes one expected character. -/
def expectChar (c : Char) : List Char → Option (List Char)
  | x :: rest => if x = c then some rest else none
  | [] => none

/-- Models `chrono::DateTime::parse_from_str(s, "%FT%T%z")` as used by
`Media::from`: a four-digit year, month and day (`%F`), a literal `T`,
`HH:MM:SS` (`%T`) and a `±hhmm` or `±hh:mm` offset (`%z`), all of the input
consumed, with the calendar fields and the offset range validated. -/
def parseDateTimeFix (s : String) : Option DateTimeFix := do
  let l := s.toList
  let (y, l) ← digit4 l
  let l ← expectChar '-' l
  let (mo, l) ← digit2 l
  let l ← expectChar '-' l
  let (d, l) ← digit2 l
  let l ← expectChar 'T' l
  let (h, l) ← digit2 l
  let l ← expectChar ':' l
  let (mi, l) ← digit2 l
  let l ← expectChar ':' l
  let (sec, l) ← digit2 l
  let (sign, l) ← match l with
    | '+' :: r => some ((1 : Int), r)
    | '-' :: r => some ((-1 : Int), r)
    | _ => none
  let (oh, l) ← digit2 l
  let l := match l with
    | ':' :: r => r
    | _ => l
  let (om, l) ← digit2 l
  if l.isEmpty && 1 ≤ mo && mo ≤ 12 && 1 ≤ d && d ≤ daysInMonth y mo &&
      h ≤ 23 && mi ≤ 59 && sec ≤ 59 && om ≤ 59 && oh * 60 + om ≤ 1439 then
    some ⟨y, mo, d, h, mi, sec, sign * (oh * 60 + om)⟩
  else none

/-- `user::MediaType`. -/
inductive MediaType where
  | Image
  | Video
  | CarouselAlbum
  deriving DecidableEq

/-- `user::Media`: metadata of one media item, fields in source order. -/
structure Media where
  id : Nat
  media_type : MediaType
  username : String
  caption : Option String
  timestamp : DateTimeFix
  media_url : String
  permalink : Option String
  thumbnail_url : Option String
  deriving DecidableEq

/-- `user::response::Media`: one raw JSON record of a media item. -/
structure RespMedia where
  caption : Option String
  id : String
  media_type : String
  media_url : String
  permalink : Option String
  thumbnail_url : Option String
  timestamp : String
  username : String
  deriving DecidableEq

/-- Models `Media::from(response)` (src/user.rs): parses the id as `u64`,
matches the media-type tag against the three accepted strings, parses the
timestamp with format `%FT%T%z` and parses the three URLs; any failure is an
error for the whole record. -/
def Media.fromResponse (response : RespMedia) : Except Err Media := do
  let id ← match parseU64 response.id with
    | some n => Except.ok n
    | none => Except.error Err.parseInt
  let media_type ← match response.media_type with
    | "IMAGE" => Except.ok MediaType.Image
    | "VIDEO" => Except.ok MediaType.Video
    | "CAROUSEL_ALBUM" => Except.ok MediaType.CarouselAlbum
    | _ => Except.error (Err.msg "invalid media type")
  let timestamp ← match parseDateTimeFix response.timestamp with
    | some t => Except.ok t
    | none => Except.error Err.parseDate
  let media_url ← match urlParse response.media_url with
    | some u => Except.ok u
    | none => Except.error Err.parseUrl
  let permalink ← parse_opt response.permalink
  let thumbnail_url ← parse_opt response.thumbnail_url
  Except.ok
    { id := id, media_type := media_type, username := response.username,
      caption := response.caption, timestamp := timestamp,
      media_url := media_url, permalink := permalink, thumbnail_url := thumbnail_url }

/-- The outcome of one page fetch in `collect_media`'s loop:
`fail` bundles send/HTTP-status/JSON-decoding failures (each aborts via `?`);
`page` carries the decoded `response::MediaContainer`: its `data` records and
its `paging.next` cursor. -/
inductive FetchResult where
  | fail : Err → FetchResult
  | page : List RespMedia → Option String → FetchResult
  deriving DecidableEq

/-- The `data` records of a fetched page (empty for a failed fetch). -/
def pageData : FetchResult → List RespMedia
  | FetchResult.fail _ => []
  | FetchResult.page data _ => data

/-- A successfully fetched page whose `next` cursor is present and parses as a
URL, i.e. a page after which the collection loop keeps running. -/
def isLivePage : FetchResult → Bool
  | FetchResult.page _ (some u) => (urlParse u).isSome
  | _ => false

/-- The sequential `while url.is_some()` loop of `Profile::collect_media`
(src/user.rs): fetch results are consumed in traversal order; a fetch failure
aborts, the `next` cursor is parsed with `parse_opt` (aborting on a bad URL),
and the loop stops after the first page whose cursor is absent. Returns the
page batches submitted to the thread pool, in submission (page) order. The
model has only finitely many fetch results; running out while a cursor is
still pending is reported as `Err.noResponse`. -/
def collectLoop : List FetchResult → Except Err (List (List RespMedia))
  | [] => Except.error Err.noResponse
  | FetchResult.fail e :: _ => Except.error e
  | FetchResult.page data next :: rest =>
    match parse_opt next with
    | Except.error e => Except.error e
    | Except.ok none => Except.ok [data]
    | Except.ok (some _) =>
      match collectLoop rest with
      | Except.error e => Except.error e
      | Except.ok batches => Except.ok (data :: batches)

/-- One pool job of `collect_media`: converts every record of a page batch with
`Media::from` and pushes the results in order; the `.unwrap()` on a failed
record panics the job (modelled as an error). -/
def convertBatch : List RespMedia → Except Err (List Media)
  | [] => Except.ok []
  | r :: rest =>
    match Media.fromResponse r with
    | Except.error e => Except.error e
    | Except.ok m =>
      match convertBatch rest with
      | Except.error e => Except.error e
      | Except.ok ms => Except.ok (m :: ms)

/-- Runs every page's pool job: the whole collection is poisoned as soon as any
job hits a record that fails to convert. -/
def convertBatches : List (List RespMedia) → Except Err (List (List Media))
  | [] => Except.ok []
  | b :: rest =>
    match convertBatch b with
    | Except.error e => Except.error e
    | Except.ok ms =>
      match convertBatches rest with
      | Except.error e => Except.error e
      | Except.ok rs => Except.ok (ms :: rs)

/-- Models `Profile::collect_media` (src/user.rs): the sequential fetch loop
(`collectLoop`) submits one parsing job per page to a thread pool; every job
locks the shared `Mutex<Vec<Media>>` and pushes its batch's converted items in
order. `sched` is the order in which the jobs acquire the lock (page indices).
A record that fails to convert makes its job panic while holding the lock,
poisoning the mutex, so `into_inner()?` yields an error (`Err.poisoned`) no
matter which jobs ran; no partial vector is ever returned. -/
def collect_media (fetches : List FetchResult) (sched : List Nat) : Except Err (List Media) :=
  match collectLoop fetches with
  | Except.error e => Except.error e
  | Except.ok batches =>
    match convertBatches batches with
    | Except.error _ => Except.error Err.poisoned
    | Except.ok converted =>
      Except.ok (sched.filterMap (fun i => converted.get? i)).flatten

/-- `auth::Secrets`. -/
structure Secrets where
  app_id : Nat
  app_secret : String
  oauth_uri : String

/-- `auth::ShortLivedToken`. -/
structure ShortLivedToken where
  access_token : String
  user_id : Nat
  expiration_date : Int
  deriving DecidableEq

/-- `auth::LongLivedToken`. -/
structure LongLivedToken where
  access_token : String
  user_id : Nat
  expiration_date : Int
  deriving DecidableEq

/-- The default body of `Token::is_valid` (src/auth.rs): `Utc::now() <
*self.expiration_date()`, with `now` the evaluation instant. -/
def tokenIsValid (now expiration_date : Int) : Bool :=
  decide (now < expiration_date)

/-- `Token::is_valid` for a short-lived token. -/
def ShortLivedToken.is_valid (t : ShortLivedToken) (now : Int) : Bool :=
  tokenIsValid now t.expiration_date

/-- `Token::is_valid` for a long-lived token. -/
def LongLivedToken.is_valid (t : LongLivedToken) (now : Int) : Bool :=
  tokenIsValid now t.expiration_date

/-- `auth::response::LongLivedToken`: the decoded JSON of the exchange and
refresh endpoints (`access_token` plus `expires_in` seconds, a `u32`). -/
structure RespLongLivedToken where
  access_token : String
  expires_in : Nat
  deriving DecidableEq

/-- Result of `LongLivedToken::new`: the returned value and how many network
round trips were performed. -/
structure NewResult where
  result : Except Err LongLivedToken
  networkCalls : Nat

/-- Result of `LongLivedToken::refresh`: the returned value, the token after
the call (`refresh` takes `&mut self`) and how many network round trips were
performed. -/
structure RefreshResult where
  result : Except Err Unit
  token : LongLivedToken
  networkCalls : Nat

/-- Models `LongLivedToken::new` (src/auth.rs): rejects an expired short-lived
token before doing anything else, builds the exchange URL, performs one GET
(`transport` is the round trip: send, `error_for_status` and JSON decoding
folded into one `Except`), and on success builds the long-lived token from the
response's `access_token`, the short-lived token's `user_id` and
`Utc::now() + Duration::seconds(expires_in)` (`nowAfter` is that later
instant). -/
def LongLivedToken.new (secrets : Secrets) (short_lived_token : ShortLivedToken)
    (now nowAfter : Int) (transport : Except Err RespLongLivedToken) : NewResult :=
  if !short_lived_token.is_valid now then
    { result := Except.error (Err.msg "short-lived token has been expired"), networkCalls := 0 }
  else
    match urlParseWithParams "https://graph.instagram.com/access_token"
        [("client_secret", secrets.app_secret),
         ("access_token", short_lived_token.access_token),
         ("grant_type", "ig_exchange_token")] with
    | none => { result := Except.error Err.parseUrl, networkCalls := 0 }
    | some _ =>
      match transport with
      | Except.error e => { result := Except.error e, networkCalls := 1 }
      | Except.ok token =>
        { result := Except.ok
            { access_token := token.access_token,
              user_id := short_lived_token.user_id,
              expiration_date := nowAfter + token.expires_in * nsPerSec },
          networkCalls := 1 }

/-- Models `LongLivedToken::refresh` (src/auth.rs): rejects an expired token
before doing anything else, builds the refresh URL, performs one GET
(`transport` as in `LongLivedToken.new`), and on success assigns
`access_token` and `expiration_date` together; on any failure the token is
left exactly as it was. -/
def LongLivedToken.refresh (t : LongLivedToken) (now nowAfter : Int)
    (transport : Except Err RespLongLivedToken) : RefreshResult :=
  if !t.is_valid now then
    { result := Except.error (Err.msg "token has been expired"), token := t, networkCalls := 0 }
  else
    match urlParseWithParams "https://graph.instagram.com/refresh_access_token"
        [("access_token", t.access_token), ("grant_type", "ig_refresh_token")] with
    | none => { result := Except.error Err.parseUrl, token := t, networkCalls := 0 }
    | some _ =>
      match transport with
      | Except.error e => { result := Except.error e, token := t, networkCalls := 1 }
      | Except.ok token =>
        { result := Except.ok (),
          token :=
            { access_token := token.access_token,
              user_id := t.user_id,
              expiration_date := nowAfter + token.expires_in * nsPerSec },
          networkCalls := 1 }

/-- The serialized shape of a `LongLivedToken`: `access_token`, `user_id`, and
the expiration serialized by `chrono::serde::ts_seconds`, i.e.
`DateTime::timestamp()` — whole seconds, floor division (Euclidean division by
the positive constant `nsPerSec` is floor division). -/
structure TokenRecord where
  access_token : String
  user_id : Nat
  expiration_seconds : Int
  deriving DecidableEq

/-- Serialization of a `LongLivedToken` (serde derive with
`chrono::serde::ts_seconds` on `expiration_date`). -/
def LongLivedToken.serialize (t : LongLivedToken) : TokenRecord :=
  { access_token := t.access_token, user_id := t.user_id,
    expiration_seconds := t.expiration_date / nsPerSec }

/-- Deserialization of a `LongLivedToken` (ts_seconds reads whole seconds, so
the nanosecond part is zero). -/
def TokenRecord.deserialize (r : TokenRecord) : LongLivedToken :=
  { access_token := r.access_token, user_id := r.user_id,
    expiration_date := r.expiration_seconds * nsPerSec }

/-- Serialize-then-deserialize round trip of a long-lived token. -/
def tokenRoundTrip (t : LongLivedToken) : LongLivedToken :=
  t.serialize.deserialize

/-- Rust `char::is_whitespace`: the Unicode `White_Space` property. -/
def isRustWhitespace (c : Char) : Bool :=
  c.toNat = 0x09 || c.toNat = 0x0A || c.toNat = 0x0B || c.toNat = 0x0C || c.toNat = 0x0D ||
  c.toNat = 0x20 || c.toNat = 0x85 || c.toNat = 0xA0 || c.toNat = 0x1680 ||
  (0x2000 ≤ c.toNat && c.toNat ≤ 0x200A) ||
  c.toNat = 0x2028 || c.toNat = 0x2029 || c.toNat = 0x202F || c.toNat = 0x205F ||
  c.toNat = 0x3000

/-- Trims Unicode whitespace from both ends of a character list, as Rust
`str::trim` does. -/
def trimList (l : List Char) : List Char :=
  ((l.dropWhile isRustWhitespace).reverse.dropWhile isRustWhitespace).reverse

/-- Rust `str::trim`. -/
def rustTrim (s : String) : String :=
  String.mk (trimList s.toList)

/-- The read-trim-retry loop of `auth::request_code` (src/auth.rs): each
iteration appends one stdin line (with its newline) to the accumulated buffer,
trims it, and returns it if nonempty; `inputs` is the sequence of available
stdin lines, and `none` models an input source that never yields a nonempty
code. -/
def requestCodeLoop : String → List String → Option String
  | _, [] => none
  | code, line :: rest =>
    let code := rustTrim (code ++ line ++ "\n")
    if code.isEmpty then requestCodeLoop code rest else some code

/-- Models `auth::request_code`: opening the authorization page is a side
effect with no bearing on the returned value; the result is the first
nonempty trimmed line of user input. -/
def request_code (inputs : List String) : Option String :=
  requestCodeLoop "" inputs

/-- The per-item outcome of the instafetcher downloader, as observed on the
console: a success message or the `eprintln` failure report for that item. -/
inductive Outcome where
  | success : Nat → Outcome
  | failure : Nat → Err → Outcome
  deriving DecidableEq

/-- The external effects of the downloader, passed in explicitly:
`albumFetch` is `Profile::album`, `mkdir` is `fs::create_dir` for an album
directory, and `createFile`, `httpGet` (send plus `error_for_status` plus
body retrieval: a client or server HTTP status is an error) and `copyData`
(`io::copy`) are the per-item steps of `download_file`. -/
structure DlEnv where
  albumFetch : Media → Except Err (List Media)
  mkdir : Media → Except Err Unit
  createFile : Media → Except Err Unit
  httpGet : Media → Except Err Unit
  copyData : Media → Except Err Unit

/-- Left-pads a decimal rendering to two digits. -/
def pad2 (n : Nat) : String := if n < 10 then "0" ++ toString n else toString n

/-- Left-pads a decimal rendering to four digits. -/
def pad4 (n : Nat) : String :=
  if n < 10 then "000" ++ toString n
  else if n < 100 then "00" ++ toString n
  else if n < 1000 then "0" ++ toString n
  else toString n

/-- `media.timestamp().format("%FT%H-%M-%S")` on the embedded timestamp
components. -/
def fmtTimestampFile (t : DateTimeFix) : String :=
  pad4 t.year ++ "-" ++ pad2 t.month ++ "-" ++ pad2 t.day ++ "T" ++
    pad2 t.hour ++ "-" ++ pad2 t.minute ++ "-" ++ pad2 t.second

/-- `instafetcher::media::filename`: `username_id_timestamp`. -/
def filename (media : Media) : String :=
  media.username ++ "_" ++ toString media.id ++ "_" ++ fmtTimestampFile media.timestamp

/-- Models `url.path()` on the embedded URL string: drops the scheme and the
colon, stops at a query or fragment, and skips the authority when the URL has
one. -/
def urlPath (u : String) : List Char :=
  let rest := ((u.toList.dropWhile (· ≠ ':')).drop 1).takeWhile (fun c => c ≠ '?' && c ≠ '#')
  match rest with
  | '/' :: '/' :: r => r.dropWhile (· ≠ '/')
  | r => r

/-- Models `Path::extension` on the final component of a path: the part after
the last dot, provided a dot exists and does not start the file name. -/
def pathExtension (path : List Char) : Option String :=
  let comp := (path.reverse.takeWhile (· ≠ '/')).reverse
  let revComp := comp.reverse
  match revComp.dropWhile (· ≠ '.') with
  | '.' :: stemRev =>
    if stemRev.isEmpty then none
    else some (String.mk (revComp.takeWhile (· ≠ '.')).reverse)
  | _ => none

/-- Models `instafetcher::media::download_file`: builds the file name (with the
extension taken from the URL path when present), creates the file, performs
the GET with `error_for_status`, and copies the body; any step failing is an
error for this item. Returns the path of the downloaded file. -/
def download_file (media : Media) (output_dir : String) (env : DlEnv) : Except Err String := do
  let name := filename media
  let name := match pathExtension (urlPath media.media_url) with
    | some ext => name ++ "." ++ ext
    | none => name
  let filepath := output_dir ++ "/" ++ name
  env.createFile media
  env.httpGet media
  env.copyData media
  Except.ok filepath

/-- The console outcome of one `download_file` run for one item: the failure is
reported (`eprintln`) for that item and swallowed, never propagated. -/
def outcomeOf (media : Media) (r : Except Err String) : Outcome :=
  match r with
  | Except.ok _ => Outcome.success media.id
  | Except.error e => Outcome.failure media.id e

/-- Models `instafetcher::media::download_album`: a failed album fetch or a
failed directory creation is reported for the album and ends its handling;
otherwise every child is downloaded into the album directory, each with its
own outcome. -/
def download_album (album : Media) (output_dir : String) (env : DlEnv) : List Outcome :=
  match env.albumFetch album with
  | Except.error e => [Outcome.failure album.id e]
  | Except.ok children =>
    match env.mkdir album with
    | Except.error e => [Outcome.failure album.id e]
    | Except.ok _ =>
      children.map fun m =>
        outcomeOf m (download_file m (output_dir ++ "/" ++ filename album) env)

/-- Models the dispatch loop of `instafetcher::media::download_all`
(examples/instafetcher/media.rs, lines 42-58): for each gathered item, an
album is skipped when `include_albums` is false and handled by
`download_album` when true; every other item is submitted to the pool for one
`download_file` run whose failure is reported for that item only. The
function itself always returns `Ok(())`; the value here is the list of
per-item outcomes. The pool only affects the interleaving of the console
messages, not which outcomes exist, so outcomes are listed in submission
order. -/
def download_all : List Media → String → Bool → DlEnv → List Outcome
  | [], _, _, _ => []
  | media :: rest, output_dir, include_albums, env =>
    (if media.media_type = MediaType.CarouselAlbum then
      if include_albums then download_album media output_dir env else []
    else
      [outcomeOf media (download_file media output_dir env)]) ++
    download_all rest output_dir include_albums env

/-! Helper lemmas. -/

theorem convertBatch_error_of_mem {b : List RespMedia} {r : RespMedia} {e : Err}
    (hmem : r ∈ b) (herr : Media.fromResponse r = Except.error e) :
    ∃ e', convertBatch b = Except.error e' := by
  induction b with
  | nil => cases hmem
  | cons x rest ih =>
    rcases List.mem_cons.mp hmem with hx | hx
    · subst hx
      exact ⟨e, by simp [convertBatch, herr]⟩
    · obtain ⟨e', he'⟩ := ih hx
      cases hfx : Media.fromResponse x with
      | error ex => exact ⟨ex, by simp [convertBatch, hfx]⟩
      | ok m => exact ⟨e', by simp [convertBatch, hfx, he']⟩

theorem convertBatches_error_of_mem {bs : List (List RespMedia)} {b : List RespMedia}
    (hmem : b ∈ bs) (herr : ∃ e, convertBatch b = Except.error e) :
    ∃ e', convertBatches bs = Except.error e' := by
  induction bs with
  | nil => cases hmem
  | cons x rest ih =>
    rcases List.mem_cons.mp hmem with hx | hx
    · subst hx
      obtain ⟨e, he⟩ := herr
      exact ⟨e, by simp [convertBatches, he]⟩
    · obtain ⟨e', he'⟩ := ih hx
      cases hfx : convertBatch x with
      | error ex => exact ⟨ex, by simp [convertBatches, hfx]⟩
      | ok ms => exact ⟨e', by simp [convertBatches, hfx, he']⟩

theorem convertBatches_ok_length {bs : List (List RespMedia)} {cs : List (List Media)}
    (h : convertBatches bs = Except.ok cs) : cs.length = bs.length := by
  induction bs generalizing cs with
  | nil =>
    simp only [convertBatches] at h
    cases h
    rfl
  | cons x rest ih =>
    simp only [convertBatches] at h
    cases hfx : convertBatch x with
    | error ex => rw [hfx] at h; cases h
    | ok ms =>
      rw [hfx] at h
      cases hrest : convertBatches rest with
      | error e => rw [hrest] at h; cases h
      | ok rs =>
        rw [hrest] at h
        cases h
        simp [ih hrest]

theorem filterMap_get?_range {α : Type} (l : List α) :
    (List.range l.length).filterMap (fun i => l.get? i) = l := by
  induction l with
  | nil => rfl
  | cons a t ih =>
    rw [List.length_cons, List.range_succ_eq_map, List.filterMap_cons]
    simp only [List.get?_cons_zero]
    rw [List.filterMap_map]
    have hcomp : ((fun i => (a :: t).get? i) ∘ Nat.succ) = fun i => t.get? i := by
      funext i
      simp [List.get?_cons_succ]
    rw [hcomp, ih]

theorem collectLoop_stop (pre : List FetchResult) (d : List RespMedia) (rest : List FetchResult)
    (h : ∀ f ∈ pre, isLivePage f = true) :
    collectLoop (pre ++ FetchResult.page d none :: rest) =
      Except.ok (pre.map pageData ++ [d]) := by
  induction pre with
  | nil => rfl
  | cons f pre' ih =>
    have hf : isLivePage f = true := h f (List.mem_cons_self f pre')
    have hpre' : ∀ g ∈ pre', isLivePage g = true := fun g hg => h g (List.mem_cons_of_mem f hg)
    cases f with
    | fail e => simp [isLivePage] at hf
    | page dd next =>
      cases next with
      | none => simp [isLivePage] at hf
      | some u =>
        simp only [isLivePage, Option.isSome_iff_exists] at hf
        obtain ⟨v, hv⟩ := hf
        simp [collectLoop, parse_opt, hv, ih hpre', pageData]

theorem dropWhile_dropWhile (p : Char → Bool) (l : List Char) :
    List.dropWhile p (List.dropWhile p l) = List.dropWhile p l := by
  induction l with
  | nil => rfl
  | cons a t ih =>
    by_cases h : p a = true
    · simp [List.dropWhile_cons, h, ih]
    · simp only [Bool.not_eq_true] at h
      simp [List.dropWhile_cons, h]

theorem length_dropWhile_le (p : Char → Bool) (l : List Char) :
    (List.dropWhile p l).length ≤ l.length := by
  induction l with
  | nil => exact Nat.le_refl 0
  | cons a t ih =>
    by_cases h : p a = true
    · simp only [List.dropWhile_cons, h, if_true]
      exact Nat.le_succ_of_le ih
    · simp only [Bool.not_eq_true] at h
      simp [List.dropWhile_cons, h]

theorem dropWhile_eq_self_of_isPrefixOf (p : Char → Bool) {l₁ l₂ : List Char}
    (h : l₁ <+: l₂) (h2 : List.dropWhile p l₂ = l₂) : List.dropWhile p l₁ = l₁ := by
  cases l₁ with
  | nil => rfl
  | cons a t =>
    obtain ⟨r, hr⟩ := h
    have hpa : p a = false := by
      by_contra hc
      simp only [Bool.not_eq_false] at hc
      rw [← hr, List.cons_append, List.dropWhile_cons, hc] at h2
      simp only [if_pos] at h2
      have hlen := congrArg List.length h2
      have hle := length_dropWhile_le p (t ++ r)
      simp only [List.length_cons] at hlen
      omega
    simp [List.dropWhile_cons, hpa]

theorem dropWhile_trimList (l : List Char) :
    List.dropWhile isRustWhitespace (trimList l) = trimList l := by
  have hsuf : ∃ r, (List.dropWhile isRustWhitespace l).reverse =
      r ++ List.dropWhile isRustWhitespace (List.dropWhile isRustWhitespace l).reverse := by
    induction (List.dropWhile isRustWhitespace l).reverse with
    | nil => exact ⟨[], rfl⟩
    | cons a t ih =>
      by_cases h : isRustWhitespace a = true
      · obtain ⟨r, hr⟩ := ih
        exact ⟨a :: r, by simp [List.dropWhile_cons, h]; exact hr⟩
      · simp only [Bool.not_eq_true] at h
        exact ⟨[], by simp [List.dropWhile_cons, h]⟩
  obtain ⟨r, hr⟩ := hsuf
  have hpre : trimList l <+: List.dropWhile isRustWhitespace l := by
    refine ⟨r.reverse, ?_⟩
    have := congrArg List.reverse hr
    simpa [trimList, List.reverse_append] using this.symm
  exact dropWhile_eq_self_of_isPrefixOf isRustWhitespace hpre
    (dropWhile_dropWhile isRustWhitespace l)

theorem trimList_trimList (l : List Char) : trimList (trimList l) = trimList l := by
  show ((((trimList l).dropWhile isRustWhitespace).reverse.dropWhile
      isRustWhitespace).reverse) = trimList l
  rw [dropWhile_trimList]
  have : (trimList l).reverse =
      List.dropWhile isRustWhitespace (List.dropWhile isRustWhitespace l).reverse := by
    simp [trimList]
  rw [this, dropWhile_dropWhile, ← this, List.reverse_reverse]

theorem rustTrim_rustTrim (s : String) : rustTrim (rustTrim s) = rustTrim s := by
  show String.mk (trimList (trimList s.toList)) = String.mk (trimList s.toList)
  rw [trimList_trimList]

theorem requestCodeLoop_trimmed {inputs : List String} {code s : String}
    (h : requestCodeLoop code inputs = some s) : s ≠ "" ∧ rustTrim s = s := by
  induction inputs generalizing code with
  | nil => cases h
  | cons line rest ih =>
    simp only [requestCodeLoop] at h
    by_cases hemp : (rustTrim (code ++ line ++ "\n")).isEmpty = true
    · rw [if_pos hemp] at h
      exact ih h
    · rw [if_neg hemp] at h
      cases h
      simp only [Bool.not_eq_true] at hemp
      constructor
      · intro he
        rw [he] at hemp
        cases hemp
      · exact rustTrim_rustTrim _

/-! Concrete sample data shared by witnesses and counterexamples. -/

/-- The Unix epoch as a parsed timestamp (offset `+0000`). -/
def epochTs : DateTimeFix := ⟨1970, 1, 1, 0, 0, 0, 0⟩

/-- A well-formed image record (the `"test:"` URL also appears in the crate's
own tests). -/
def respA : RespMedia := ⟨none, "1", "IMAGE", "test:", none, none, "1970-01-01T00:00:00+0000", "u"⟩

/-- A well-formed video record. -/
def respB : RespMedia := ⟨none, "2", "VIDEO", "test:", none, none, "1970-01-01T00:00:00+0000", "u"⟩

/-- A well-formed image record. -/
def respC : RespMedia := ⟨none, "3", "IMAGE", "test:", none, none, "1970-01-01T00:00:00+0000", "u"⟩

/-- A well-formed image record. -/
def respD : RespMedia := ⟨none, "4", "IMAGE", "test:", none, none, "1970-01-01T00:00:00+0000", "u"⟩

/-- A well-formed video record. -/
def respE : RespMedia := ⟨none, "5", "VIDEO", "test:", none, none, "1970-01-01T00:00:00+0000", "u"⟩

/-- A record with an invalid media-type tag, as in the crate's
`into_invalid_media` test. -/
def respBad : RespMedia :=
  ⟨none, "1", "UNKNOWN", "test:", none, none, "1970-01-01T00:00:00+0000", "u"⟩

/-- The conversion of `respA`. -/
def mediaA : Media := ⟨1, MediaType.Image, "u", none, epochTs, "test:", none, none⟩

/-- The conversion of `respB`. -/
def mediaB : Media := ⟨2, MediaType.Video, "u", none, epochTs, "test:", none, none⟩

/-- The conversion of `respC`. -/
def mediaC : Media := ⟨3, MediaType.Image, "u", none, epochTs, "test:", none, none⟩

/-- The conversion of `respD`. -/
def mediaD : Media := ⟨4, MediaType.Image, "u", none, epochTs, "test:", none, none⟩

/-- The conversion of `respE`. -/
def mediaE : Media := ⟨5, MediaType.Video, "u", none, epochTs, "test:", none, none⟩

/-! Claim theorems. -/

/-- C1, counterexample: the order of `collect_media`'s result is NOT
independent of the order in which the page-parsing jobs acquire the lock.
With two well-formed pages `[respA, respB]` and `[respC]`, the schedule in
which page 2's job acquires the mutex first (a permutation of the submitted
job indices) yields `[mediaC, mediaA, mediaB]` — page 2's item precedes
page 1's items — while the submission-order schedule yields
`[mediaA, mediaB, mediaC]`. -/
theorem collect_media_reorder_cex :
    [1, 0].Perm (List.range 2) ∧
    collect_media [FetchResult.page [respA, respB] (some "test:"), FetchResult.page [respC] none]
      [1, 0] = Except.ok [mediaC, mediaA, mediaB] ∧
    collect_media [FetchResult.page [respA, respB] (some "test:"), FetchResult.page [respC] none]
      [0, 1] = Except.ok [mediaA, mediaB, mediaC] ∧
    mediaC ≠ mediaA ∧ mediaC ≠ mediaB :=
  ⟨by decide, rfl, rfl, by decide, by decide⟩

/-- C1, amended: the media list returned by `collect_media` is the
concatenation of the pages' converted batches in lock-acquisition order, with
item order preserved inside every page; when the jobs acquire the lock in
submission (page-traversal) order, the result is exactly the page-ordered
concatenation: every item of page N precedes every item of page N+1. -/
theorem collect_media_page_order (fetches : List FetchResult)
    (batches : List (List RespMedia)) (converted : List (List Media))
    (h1 : collectLoop fetches = Except.ok batches)
    (h2 : convertBatches batches = Except.ok converted) :
    collect_media fetches (List.range batches.length) = Except.ok converted.flatten := by
  simp only [collect_media, h1, h2]
  rw [← convertBatches_ok_length h2, filterMap_get?_range]

/-- Witness for C1 on the spec's three-page example: pages `[A, B]`, `[C]`,
`[D, E]` with the last cursor absent collect, under the submission-order
schedule, to exactly `[A, B, C, D, E]`. -/
theorem collect_media_page_order_witness :
    collectLoop [FetchResult.page [respA, respB] (some "test:"),
      FetchResult.page [respC] (some "test:"), FetchResult.page [respD, respE] none] =
      Except.ok [[respA, respB], [respC], [respD, respE]] ∧
    collect_media [FetchResult.page [respA, respB] (some "test:"),
      FetchResult.page [respC] (some "test:"), FetchResult.page [respD, respE] none]
      (List.range 3) = Except.ok [mediaA, mediaB, mediaC, mediaD, mediaE] :=
  ⟨rfl, collect_media_page_order
    [FetchResult.page [respA, respB] (some "test:"),
      FetchResult.page [respC] (some "test:"), FetchResult.page [respD, respE] none]
    [[respA, respB], [respC], [respD, respE]]
    [[mediaA, mediaB], [mediaC], [mediaD, mediaE]] rfl rfl⟩

/-- C2: if any page fetch fails, or any record of any fetched batch fails to
convert (invalid type tag, unparsable id, timestamp or URL), `collect_media`
returns an error — never a partial item list; a bad record is never
skipped. -/
theorem collect_media_aborts_on_failure (fetches : List FetchResult) (sched : List Nat)
    (h : (∃ e, collectLoop fetches = Except.error e) ∨
      (∃ batches, collectLoop fetches = Except.ok batches ∧
        ∃ b ∈ batches, ∃ r ∈ b, ∃ e, Media.fromResponse r = Except.error e)) :
    ∃ e, collect_media fetches sched = Except.error e := by
  rcases h with ⟨e, he⟩ | ⟨batches, hb, b, hbm, r, hrm, e, herr⟩
  · simp only [collect_media, he]
    exact ⟨e, rfl⟩
  · obtain ⟨e', he'⟩ := convertBatches_error_of_mem hbm (convertBatch_error_of_mem hrm herr)
    simp only [collect_media, hb, he']
    exact ⟨Err.poisoned, rfl⟩

/-- Witness for C2: a batch containing a record with media type `"UNKNOWN"`
(alongside a well-formed record) makes the whole collection fail. -/
theorem collect_media_aborts_witness :
    Media.fromResponse respBad = Except.error (Err.msg "invalid media type") ∧
    ∃ e, collect_media [FetchResult.page [respA, respBad] none] [0] = Except.error e :=
  ⟨rfl, collect_media_aborts_on_failure _ _ (Or.inr ⟨[[respA, respBad]], rfl,
    [respA, respBad], by decide, respBad, by decide, Err.msg "invalid media type", rfl⟩)⟩

/-- C8: the collection loop terminates right after processing the first
fetched page whose cursor is absent — the result is the batches of the live
prefix plus that page, and any further fetch results are never consumed; a
single cursor-less page with zero items collects to the empty list. -/
theorem collect_media_stops_at_first_absent_cursor (pre : List FetchResult)
    (d : List RespMedia) (rest : List FetchResult) (sched : List Nat)
    (h : ∀ f ∈ pre, isLivePage f = true) :
    collectLoop (pre ++ FetchResult.page d none :: rest) =
      Except.ok (pre.map pageData ++ [d]) ∧
    collect_media (pre ++ FetchResult.page d none :: rest) sched =
      collect_media (pre ++ [FetchResult.page d none]) sched ∧
    collect_media [FetchResult.page [] none] [0] = Except.ok [] := by
  refine ⟨collectLoop_stop pre d rest h, ?_, rfl⟩
  simp only [collect_media, collectLoop_stop pre d rest h, collectLoop_stop pre d [] h]

/-- Witness for C8: after the cursor-less page `[respB]`, the pending fetch
failure is never consumed and the collection equals that of the truncated
traversal. -/
theorem collect_media_stops_witness :
    (∀ f ∈ [FetchResult.page [respA] (some "test:")], isLivePage f = true) ∧
    collectLoop [FetchResult.page [respA] (some "test:"), FetchResult.page [respB] none,
      FetchResult.fail Err.network] = Except.ok [[respA], [respB]] ∧
    collect_media [FetchResult.page [respA] (some "test:"), FetchResult.page [respB] none,
      FetchResult.fail Err.network] [0, 1] =
      collect_media [FetchResult.page [respA] (some "test:"),
        FetchResult.page [respB] none] [0, 1] :=
  ⟨by decide,
   (collect_media_stops_at_first_absent_cursor [FetchResult.page [respA] (some "test:")]
     [respB] [FetchResult.fail Err.network] [0, 1] (by decide)).1,
   (collect_media_stops_at_first_absent_cursor [FetchResult.page [respA] (some "test:")]
     [respB] [FetchResult.fail Err.network] [0, 1] (by decide)).2.1⟩

/-- C3: `refresh` mutates the token only when the network round trip and
response decoding both succeed, and then it replaces `access_token` and
`expiration_date` together; on any failure the token is exactly as before the
call. -/
theorem refresh_no_partial_mutation (t : LongLivedToken) (now nowAfter : Int)
    (transport : Except Err RespLongLivedToken) :
    ((∃ e, (t.refresh now nowAfter transport).result = Except.error e) →
      (t.refresh now nowAfter transport).token = t) ∧
    ((t.refresh now nowAfter transport).result = Except.ok () →
      ∃ resp, transport = Except.ok resp ∧
        (t.refresh now nowAfter transport).token =
          ⟨resp.access_token, t.user_id, nowAfter + resp.expires_in * nsPerSec⟩) := by
  have hurl : urlParseWithParams "https://graph.instagram.com/refresh_access_token"
      [("access_token", t.access_token), ("grant_type", "ig_refresh_token")] =
      some "https://graph.instagram.com/refresh_access_token" := rfl
  cases hv : t.is_valid now with
  | false => simp [LongLivedToken.refresh, hv]
  | true =>
    cases transport with
    | error e => simp [LongLivedToken.refresh, hv, hurl]
    | ok resp => simp [LongLivedToken.refresh, hv, hurl]

/-- Witness for C3: a network failure leaves the token untouched; a successful
round trip installs the response's access token and the new expiration. -/
theorem refresh_no_partial_mutation_witness :
    ((⟨"old", 7, 10⟩ : LongLivedToken).refresh 0 3 (Except.error Err.network)).token =
      ⟨"old", 7, 10⟩ ∧
    ∃ resp, (Except.ok ⟨"new", 60⟩ : Except Err RespLongLivedToken) = Except.ok resp ∧
      ((⟨"old", 7, 10⟩ : LongLivedToken).refresh 0 3 (Except.ok ⟨"new", 60⟩)).token =
        ⟨resp.access_token, 7, 3 + resp.expires_in * nsPerSec⟩ :=
  ⟨(refresh_no_partial_mutation ⟨"old", 7, 10⟩ 0 3 (Except.error Err.network)).1
      ⟨Err.network, rfl⟩,
   (refresh_no_partial_mutation ⟨"old", 7, 10⟩ 0 3 (Except.ok ⟨"new", 60⟩)).2 rfl⟩

/-- C4: on a token that is no longer valid at call time, `refresh` and the
short-to-long exchange `LongLivedToken::new` fail with the expired-token error
and perform zero network calls. -/
theorem expired_token_rejected_no_network (secrets : Secrets) (t : LongLivedToken)
    (slt : ShortLivedToken) (now nowAfter : Int) (tr tr' : Except Err RespLongLivedToken) :
    (t.is_valid now = false →
      t.refresh now nowAfter tr =
        ⟨Except.error (Err.msg "token has been expired"), t, 0⟩) ∧
    (slt.is_valid now = false →
      LongLivedToken.new secrets slt now nowAfter tr' =
        ⟨Except.error (Err.msg "short-lived token has been expired"), 0⟩) := by
  constructor
  · intro h
    simp [LongLivedToken.refresh, h]
  · intro h
    simp [LongLivedToken.new, h]

/-- Witness for C4: tokens that expired at instant 0, refreshed or exchanged
at instant 5, are rejected with zero network calls even though the transport
would have answered. -/
theorem expired_token_rejected_witness :
    (⟨"x", 1, 0⟩ : LongLivedToken).refresh 5 6 (Except.ok ⟨"new", 60⟩) =
      ⟨Except.error (Err.msg "token has been expired"), ⟨"x", 1, 0⟩, 0⟩ ∧
    LongLivedToken.new ⟨1, "s", "test:"⟩ ⟨"y", 2, 0⟩ 5 6 (Except.ok ⟨"new", 60⟩) =
      ⟨Except.error (Err.msg "short-lived token has been expired"), 0⟩ :=
  ⟨(expired_token_rejected_no_network ⟨1, "s", "test:"⟩ ⟨"x", 1, 0⟩ ⟨"y", 2, 0⟩ 5 6
      (Except.ok ⟨"new", 60⟩) (Except.ok ⟨"new", 60⟩)).1 rfl,
   (expired_token_rejected_no_network ⟨1, "s", "test:"⟩ ⟨"x", 1, 0⟩ ⟨"y", 2, 0⟩ 5 6
      (Except.ok ⟨"new", 60⟩) (Except.ok ⟨"new", 60⟩)).2 rfl⟩

/-- C6: for both token kinds, `is_valid` holds exactly when the evaluation
instant is strictly before the expiration; at the expiration instant itself
the token is already invalid. -/
theorem is_valid_strict (s : ShortLivedToken) (t : LongLivedToken) (now : Int) :
    (s.is_valid now = true ↔ now < s.expiration_date) ∧
    (t.is_valid now = true ↔ now < t.expiration_date) ∧
    s.is_valid s.expiration_date = false ∧
    t.is_valid t.expiration_date = false := by
  refine ⟨?_, ?_, ?_, ?_⟩ <;>
    simp [ShortLivedToken.is_valid, LongLivedToken.is_valid, tokenIsValid]

/-- C7, counterexample: serialization truncates the expiration to whole
seconds (`ts_seconds`), so a round trip does not always preserve `is_valid`
at the same instant: with expiration 10.5 s and evaluation instant 10.2 s the
original token is valid but the round-tripped one is not. -/
theorem token_roundtrip_validity_cex :
    (⟨"a", 1, 10500000000⟩ : LongLivedToken).is_valid 10200000000 = true ∧
    tokenRoundTrip ⟨"a", 1, 10500000000⟩ = ⟨"a", 1, 10000000000⟩ ∧
    (tokenRoundTrip ⟨"a", 1, 10500000000⟩).is_valid 10200000000 = false :=
  ⟨rfl, rfl, rfl⟩

/-- C7, amended: the round trip preserves `access_token` and `user_id`
byte-for-byte; validity of the round-tripped token implies validity of the
original at the same instant, and the two agree at every instant whenever the
original expiration is a whole number of seconds (serialization truncates the
sub-second part). -/
theorem token_roundtrip_preserves (t : LongLivedToken) (now : Int) :
    (tokenRoundTrip t).access_token = t.access_token ∧
    (tokenRoundTrip t).user_id = t.user_id ∧
    ((tokenRoundTrip t).is_valid now = true → t.is_valid now = true) ∧
    (t.expiration_date % nsPerSec = 0 →
      (tokenRoundTrip t).is_valid now = t.is_valid now) := by
  refine ⟨rfl, rfl, ?_, ?_⟩
  · simp only [tokenRoundTrip, LongLivedToken.serialize, TokenRecord.deserialize,
      LongLivedToken.is_valid, tokenIsValid, decide_eq_true_eq, nsPerSec]
    omega
  · intro h
    have heq : t.expiration_date / nsPerSec * nsPerSec = t.expiration_date := by
      simp only [nsPerSec] at h ⊢
      omega
    simp only [tokenRoundTrip, LongLivedToken.serialize, TokenRecord.deserialize,
      LongLivedToken.is_valid, tokenIsValid, heq]

/-- Witness for C7: a token expiring exactly at 5 s round-trips to a token
with the same fields and the same validity at instant 0. -/
theorem token_roundtrip_witness :
    (tokenRoundTrip ⟨"a", 7, 5000000000⟩).access_token = "a" ∧
    (tokenRoundTrip ⟨"a", 7, 5000000000⟩).user_id = 7 ∧
    (⟨"a", 7, 5000000000⟩ : LongLivedToken).is_valid 0 = true ∧
    (tokenRoundTrip ⟨"a", 7, 5000000000⟩).is_valid 0 =
      (⟨"a", 7, 5000000000⟩ : LongLivedToken).is_valid 0 :=
  ⟨(token_roundtrip_preserves ⟨"a", 7, 5000000000⟩ 0).1,
   (token_roundtrip_preserves ⟨"a", 7, 5000000000⟩ 0).2.1,
   (token_roundtrip_preserves ⟨"a", 7, 5000000000⟩ 0).2.2.1 rfl,
   (token_roundtrip_preserves ⟨"a", 7, 5000000000⟩ 0).2.2.2 (by decide)⟩

/-- C9: the `user_id` never changes across the token lifecycle — a successful
exchange carries the short-lived token's `user_id` (the endpoint's response
has no user id at all), and `refresh` leaves `user_id` unchanged on every
path. -/
theorem user_id_invariant (secrets : Secrets) (slt : ShortLivedToken)
    (tok : LongLivedToken) (now nowAfter : Int) (tr tr' : Except Err RespLongLivedToken) :
    (∀ newTok, (LongLivedToken.new secrets slt now nowAfter tr).result = Except.ok newTok →
      newTok.user_id = slt.user_id) ∧
    (tok.refresh now nowAfter tr').token.user_id = tok.user_id := by
  have hurl1 : urlParseWithParams "https://graph.instagram.com/access_token"
      [("client_secret", secrets.app_secret), ("access_token", slt.access_token),
       ("grant_type", "ig_exchange_token")] =
      some "https://graph.instagram.com/access_token" := rfl
  have hurl2 : urlParseWithParams "https://graph.instagram.com/refresh_access_token"
      [("access_token", tok.access_token), ("grant_type", "ig_refresh_token")] =
      some "https://graph.instagram.com/refresh_access_token" := rfl
  constructor
  · intro newTok h
    cases hv : slt.is_valid now with
    | false => simp [LongLivedToken.new, hv] at h
    | true =>
      cases tr with
      | error e => simp [LongLivedToken.new, hv, hurl1] at h
      | ok resp =>
        simp [LongLivedToken.new, hv, hurl1] at h
        rw [← h]
  · cases hv : tok.is_valid now with
    | false => simp [LongLivedToken.refresh, hv]
    | true =>
      cases tr' with
      | error e => simp [LongLivedToken.refresh, hv, hurl2]
      | ok resp => simp [LongLivedToken.refresh, hv, hurl2]

/-- Witness for C9: a concrete successful exchange yields `user_id` 7, the id
of the short-lived token, and a concrete refresh keeps `user_id` 9. -/
theorem user_id_invariant_witness :
    (LongLivedToken.new ⟨1, "s", "test:"⟩ ⟨"sl", 7, 10⟩ 0 3 (Except.ok ⟨"new", 60⟩)).result =
      Except.ok ⟨"new", 7, 3 + 60 * nsPerSec⟩ ∧
    (⟨"new", 7, 3 + 60 * nsPerSec⟩ : LongLivedToken).user_id = 7 ∧
    ((⟨"old", 9, 10⟩ : LongLivedToken).refresh 0 3 (Except.error Err.network)).token.user_id =
      9 :=
  ⟨rfl,
   (user_id_invariant ⟨1, "s", "test:"⟩ ⟨"sl", 7, 10⟩ ⟨"old", 9, 10⟩ 0 3
      (Except.ok ⟨"new", 60⟩) (Except.error Err.network)).1 ⟨"new", 7, 3 + 60 * nsPerSec⟩ rfl,
   (user_id_invariant ⟨1, "s", "test:"⟩ ⟨"sl", 7, 10⟩ ⟨"old", 9, 10⟩ 0 3
      (Except.ok ⟨"new", 60⟩) (Except.error Err.network)).2⟩

/-- An album item, for exercising the downloader's album branch. -/
def albumSample : Media := ⟨9, MediaType.CarouselAlbum, "u", none, epochTs, "test:", none, none⟩

/-- A downloader environment in which every external step succeeds. -/
def okEnv : DlEnv :=
  ⟨fun _ => Except.ok [], fun _ => Except.ok (), fun _ => Except.ok (),
   fun _ => Except.ok (), fun _ => Except.ok ()⟩

/-- A downloader environment whose HTTP GET fails for the item with id 1 and
succeeds for every other item. -/
def failFirstEnv : DlEnv :=
  ⟨fun _ => Except.ok [], fun _ => Except.ok (), fun _ => Except.ok (),
   fun m => if m.id = 1 then Except.error Err.httpStatus else Except.ok (),
   fun _ => Except.ok ()⟩

/-- C5, counterexample: `download_all` does not yield one outcome per input
item — an album item is skipped entirely when `include_albums` is false, so
one input item yields zero outcomes. -/
theorem download_all_skips_album_cex :
    download_all [albumSample] "out" false okEnv = [] ∧
    (download_all [albumSample] "out" false okEnv).length ≠ [albumSample].length :=
  ⟨rfl, by decide⟩

/-- C5, amended: every non-album input item contributes exactly one outcome
(albums are skipped when excluded and expanded into an album-level failure or
per-child outcomes when included); a failed download (HTTP error status or
I/O failure) for one item yields a failure outcome for that item only and
never aborts or affects the outcomes of the other items, which are computed
from the environment exactly as if the failing item were absent. -/
theorem download_all_per_item (items₁ items₂ : List Media) (m : Media) (dir : String)
    (b : Bool) (env : DlEnv) (h : m.media_type ≠ MediaType.CarouselAlbum) :
    download_all (items₁ ++ m :: items₂) dir b env =
      download_all items₁ dir b env ++
        outcomeOf m (download_file m dir env) :: download_all items₂ dir b env ∧
    (∀ e, download_file m dir env = Except.error e →
      outcomeOf m (download_file m dir env) = Outcome.failure m.id e) ∧
    (∀ items : List Media, (∀ x ∈ items, x.media_type ≠ MediaType.CarouselAlbum) →
      (download_all items dir b env).length = items.length) := by
  refine ⟨?_, ?_, ?_⟩
  · induction items₁ with
    | nil => simp [download_all, h]
    | cons x t ih => simp [download_all, ih]
  · intro e he
    simp [outcomeOf, he]
  · intro items
    induction items with
    | nil => intro _; rfl
    | cons x t ih =>
      intro hall
      have hx := hall x (List.mem_cons_self x t)
      have ht := ih fun y hy => hall y (List.mem_cons_of_mem x hy)
      simp [download_all, hx, ht]

/-- Witness for C5: with the GET failing for item 1 only, the failing item
gets exactly one failure outcome and item 2 still downloads successfully. -/
theorem download_all_per_item_witness :
    mediaA.media_type ≠ MediaType.CarouselAlbum ∧
    download_all ([] ++ mediaA :: [mediaB]) "out" true failFirstEnv =
      download_all [] "out" true failFirstEnv ++
        outcomeOf mediaA (download_file mediaA "out" failFirstEnv) ::
          download_all [mediaB] "out" true failFirstEnv ∧
    download_file mediaA "out" failFirstEnv = Except.error Err.httpStatus ∧
    outcomeOf mediaA (download_file mediaA "out" failFirstEnv) =
      Outcome.failure mediaA.id Err.httpStatus ∧
    download_all [mediaB] "out" true failFirstEnv = [Outcome.success 2] :=
  ⟨by decide,
   (download_all_per_item [] [mediaB] mediaA "out" true failFirstEnv (by decide)).1,
   rfl,
   (download_all_per_item [] [mediaB] mediaA "out" true failFirstEnv (by decide)).2.1
     Err.httpStatus rfl,
   rfl⟩

/-- C10: whenever `request_code` returns successfully, the returned
authorization code is nonempty and carries no leading or trailing whitespace
(it is a fixed point of `trim`); whitespace-only input lines are rejected by
the loop and never returned. -/
theorem request_code_nonempty_trimmed (inputs : List String) (s : String)
    (h : request_code inputs = some s) : s ≠ "" ∧ rustTrim s = s :=
  requestCodeLoop_trimmed h

/-- Witness for C10: two whitespace-only lines are re-prompted, then the
padded line `"  code123  "` is returned trimmed. -/
theorem request_code_witness :
    request_code ["", "   ", "  code123  "] = some "code123" ∧
    "code123" ≠ "" ∧ rustTrim "code123" = "code123" :=
  ⟨rfl,
   (request_code_nonempty_trimmed ["", "   ", "  code123  "] "code123" rfl).1,
   (request_code_nonempty_trimmed ["", "   ", "  code123  "] "code123" rfl).2⟩

end Instapi
